import Mathlib

/-!
Verification of the Appo bridge core (`src/bridge.ts`, `src/types.ts`).

The bridge is shallowly embedded as a state machine: `BridgeState` holds the
module-level mutable state of `bridge.ts` (the `pendingRequests` map, the
`eventListeners` map, `messageIdCounter`, the optional `logger`, the set of
armed `setTimeout` timers, the current clock, and the transport-detector
bit).  Each operation returns the new state together with a trace of
observable effects (observer invocations, wire transmissions, promise
settlements, subscriber invocations) and an optional exception escaping the
operation.
-/

namespace Appo

/-- JSON-like runtime values, as produced by `JSON.parse` or passed as
already structured `event.data`.  Objects are association lists of fields. -/
inductive JsonValue where
  | null
  | bool (b : Bool)
  | num (n : Int)
  | str (s : String)
  | arr (elems : List JsonValue)
  | obj (fields : List (String × JsonValue))

/-- First-match field lookup on an object's field list (JS property access;
`JSON.parse` objects have unique keys). -/
def lookupField (fields : List (String × JsonValue)) (key : String) : Option JsonValue :=
  match fields with
  | [] => none
  | (k, v) :: rest => if k = key then some v else lookupField rest key

/-- JS property access `data.key`: `none` models `undefined` (missing field
or access on a non-object). -/
def JsonValue.getField (v : JsonValue) (key : String) : Option JsonValue :=
  match v with
  | .obj fields => lookupField fields key
  | _ => none

/-- `isBridgeResponse` from `types.ts`: a non-null object with a
string-typed `id` field and a boolean-typed `success` field. -/
def isBridgeResponse (data : JsonValue) : Bool :=
  match data with
  | .obj fields =>
      (match lookupField fields "id" with
       | some (.str _) => true
       | _ => false) &&
      (match lookupField fields "success" with
       | some (.bool _) => true
       | _ => false)
  | _ => false

/-- `isBridgeEvent` from `types.ts`: a non-null object with a string-typed
`event` field. -/
def isBridgeEvent (data : JsonValue) : Bool :=
  match data with
  | .obj fields =>
      (match lookupField fields "event" with
       | some (.str _) => true
       | _ => false)
  | _ => false

/-- The `id` field of a value already known to satisfy `isBridgeResponse`. -/
def responseId (v : JsonValue) : String :=
  match v.getField "id" with
  | some (.str s) => s
  | _ => ""

/-- The `success` field of a value already known to satisfy
`isBridgeResponse`. -/
def responseSuccess (v : JsonValue) : Bool :=
  match v.getField "success" with
  | some (.bool b) => b
  | _ => false

/-- `response.error || 'Unknown native error'`: JS `||` falls back on the
falsy values `undefined` and `""`; a non-string `error` field is outside
the `BridgeResponse` contract. -/
def responseError (v : JsonValue) : String :=
  match v.getField "error" with
  | some (.str e) => if e = "" then "Unknown native error" else e
  | _ => "Unknown native error"

/-- The `event` field of a value already known to satisfy `isBridgeEvent`. -/
def eventName (v : JsonValue) : String :=
  match v.getField "event" with
  | some (.str s) => s
  | _ => ""

/-- `AppoErrorCode` from `types.ts`. -/
inductive AppoErrorCode where
  | NOT_NATIVE
  | TIMEOUT
  | NATIVE_ERROR
  | BRIDGE_UNAVAILABLE
deriving DecidableEq

/-- `AppoError` from `types.ts`: code, message, optional detail. -/
structure AppoError where
  code : AppoErrorCode
  message : String
  detail : Option String
deriving DecidableEq

/-- `AppoLogLevel` from `types.ts`. -/
inductive AppoLogLevel where
  | debug
  | warn
  | error
deriving DecidableEq

/-- An installed observer (`AppoLogger`).  The result `none` means the
observer returned normally; `some e` means it threw exception `e`. -/
def LoggerFn : Type :=
  AppoLogLevel → String → Option JsonValue → Option String

/-- A subscriber callback registered with `addEventListener`: `sid` is the
function's reference identity (JS `Set` membership is by reference), `run`
its behavior — `none` for a normal return, `some e` for a thrown
exception `e`. -/
structure Subscriber where
  sid : Nat
  run : Option JsonValue → Option String

/-- `BridgeMessage` from `types.ts`: the outgoing request envelope. -/
structure BridgeMessage where
  id : String
  type : String
  payload : Option JsonValue

/-- An armed `setTimeout` timer created by `sendMessage`; the closure
captures the request `id` and channel `type`. -/
structure TimerEntry where
  tid : Nat
  expiry : Nat
  reqId : String
  reqType : String

/-- A `pendingRequests` entry: the data captured by the response callback
closure registered in `sendMessage` (channel type and timer handle). -/
structure PendingEntry where
  reqType : String
  timerId : Nat
deriving DecidableEq

/-- The module-level mutable state of `bridge.ts`, plus the clock
(`Date.now()`) and the transport-detector bit
(`window.ReactNativeWebView` presence). -/
structure BridgeState where
  pendingRequests : List (String × PendingEntry)
  eventListeners : List (String × List Subscriber)
  messageIdCounter : Nat
  logger : Option LoggerFn
  timers : List TimerEntry
  nextTimerId : Nat
  now : Nat
  nativeEnv : Bool

/-- Observable effects of a bridge operation, in order of occurrence. -/
inductive Effect where
  | observe (level : AppoLogLevel) (message : String) (data : Option JsonValue)
  | transmit (msg : BridgeMessage)
  | resolveP (id : String) (value : Option JsonValue)
  | rejectP (id : String) (err : AppoError)
  | invoke (sid : Nat) (arg : Option JsonValue)

/-- JS `Map.get` / first-match association-list lookup (JS `Map` keys are
unique). -/
def lookupKey {α : Type} (m : List (String × α)) (k : String) : Option α :=
  match m with
  | [] => none
  | (k', v) :: rest => if k' = k then some v else lookupKey rest k

/-- JS `Map.set`: replace the entry for `k` if present, else insert. -/
def setKey {α : Type} (m : List (String × α)) (k : String) (v : α) : List (String × α) :=
  match m with
  | [] => [(k, v)]
  | (k', v') :: rest => if k' = k then (k, v) :: rest else (k', v') :: setKey rest k v

/-- JS `Map.delete`: remove the entry for `k` (keys are unique, so
dropping every match removes exactly that entry). -/
def delKey {α : Type} (m : List (String × α)) (k : String) : List (String × α) :=
  match m with
  | [] => []
  | (k', v) :: rest => if k' = k then delKey rest k else (k', v) :: delKey rest k

/-- `isNativeEnvironment` from `bridge.ts`: the transport-detector
predicate, evaluated fresh on each call. -/
def isNativeEnvironment (s : BridgeState) : Bool :=
  s.nativeEnv

/-- `setLogger` from `bridge.ts`. -/
def setLogger (s : BridgeState) (fn : Option LoggerFn) : BridgeState :=
  { s with logger := fn }

/-- The internal `log` helper: `logger?.(level, message, data)`.  Returns
the observer-invocation effects and the exception the observer threw, if
any: the call is not guarded, so an observer exception escapes. -/
def logCall (s : BridgeState) (level : AppoLogLevel) (message : String)
    (data : Option JsonValue) : List Effect × Option String :=
  match s.logger with
  | none => ([], none)
  | some f => ([.observe level message data], f level message data)

/-- Decimal digit characters of a natural number, most significant first;
models the number-to-string conversion performed by the template literal
in `generateMessageId` (JS renders nonnegative integers in decimal). -/
def decChars (n : Nat) : List Char :=
  if n = 0 then ['0'] else ((Nat.digits 10 n).map Nat.digitChar).reverse

/-- String rendering of a natural number in decimal. -/
def natToDec (n : Nat) : String :=
  ⟨decChars n⟩

/-- The id string built by `generateMessageId` at clock value `t` and
counter value `c`: the template literal `msg_` + time + `_` + counter. -/
def mkMessageId (t c : Nat) : String :=
  "msg_" ++ natToDec t ++ "_" ++ natToDec c

/-- `generateMessageId` from `bridge.ts`: pre-increments the module
counter and combines `Date.now()` with the new counter value. -/
def generateMessageId (s : BridgeState) : String × BridgeState :=
  (mkMessageId s.now (s.messageIdCounter + 1),
   { s with messageIdCounter := s.messageIdCounter + 1 })

/-- Outcome of a `sendMessage` call for the caller's awaited promise. -/
inductive SendOutcome where
  | rejected (err : AppoError)
  | rejectedExn (e : String)
  | pending (id : String)

/-- Result of a `sendMessage` call: the new state, the effect trace, and
the promise outcome as observable synchronously. -/
structure SendResult where
  state : BridgeState
  effects : List Effect
  outcome : SendOutcome

/-- `sendMessage` from `bridge.ts`.  Rejects with `NOT_NATIVE` before
doing anything when the host is unreachable; otherwise allocates an id,
logs a debug entry carrying only the type and id, arms the timeout timer,
registers the pending callback, and transmits the envelope.  An exception
thrown inside the promise executor (only the unguarded `log` call can
throw) rejects the promise with that exception. -/
def sendMessage (s : BridgeState) (type : String) (payload : Option JsonValue)
    (timeout : Nat) : SendResult :=
  if isNativeEnvironment s then
    let (id, s1) := generateMessageId s
    let message : BridgeMessage := ⟨id, type, payload⟩
    let (logFx, logExn) :=
      logCall s1 .debug "Sending message"
        (some (.obj [("type", .str type), ("id", .str id)]))
    match logExn with
    | some e => { state := s1, effects := logFx, outcome := .rejectedExn e }
    | none =>
      let tid := s1.nextTimerId
      let s2 := { s1 with
        nextTimerId := tid + 1,
        timers := s1.timers ++ [TimerEntry.mk tid (s1.now + timeout) id type] }
      let s3 := { s2 with
        pendingRequests := setKey s2.pendingRequests id ⟨type, tid⟩ }
      { state := s3, effects := logFx ++ [.transmit message],
        outcome := .pending id }
  else
    { state := s, effects := [],
      outcome := .rejected ⟨.NOT_NATIVE, "Not running in native environment", none⟩ }

/-- `postMessage` from `bridge.ts`: fire-and-forget send; a no-op when the
host is unreachable, otherwise transmits a fresh envelope with no pending
entry, no timer, and no log call. -/
def postMessage (s : BridgeState) (type : String) (payload : Option JsonValue) :
    BridgeState × List Effect :=
  if isNativeEnvironment s then
    let (id, s1) := generateMessageId s
    (s1, [.transmit ⟨id, type, payload⟩])
  else
    (s, [])

/-- `addEventListener` from `bridge.ts`: creates the channel's set when
absent, then adds the callback (JS `Set.add` is a no-op when the same
reference is already present). -/
def addEventListener (s : BridgeState) (event : String) (sub : Subscriber) :
    BridgeState :=
  let cur :=
    match lookupKey s.eventListeners event with
    | none => []
    | some l => l
  let updated := if cur.any (fun x => x.sid == sub.sid) then cur else cur ++ [sub]
  { s with eventListeners := setKey s.eventListeners event updated }

/-- The unsubscribe closure returned by `addEventListener` (captures the
channel name and the callback reference): deletes the callback from the
channel's set (JS `Set.delete`; sets hold no duplicates, so filtering by
reference identity removes exactly that element) and drops the channel
entry when the set becomes empty. -/
def unsubscribeRun (event : String) (sid : Nat) (s : BridgeState) : BridgeState :=
  match lookupKey s.eventListeners event with
  | none => s
  | some listeners =>
    let remaining := listeners.filter (fun x => !(x.sid == sid))
    if remaining.length = 0 then
      { s with eventListeners := delKey s.eventListeners event }
    else
      { s with eventListeners := setKey s.eventListeners event remaining }

/-- `Set.forEach((callback) => callback(data.data))`: invokes the
subscribers in insertion order; a thrown exception terminates the
iteration and escapes. -/
def runSubs (subs : List Subscriber) (arg : Option JsonValue) :
    List Effect × Option String :=
  match subs with
  | [] => ([], none)
  | sub :: rest =>
    match sub.run arg with
    | none =>
      let (fx, ex) := runSubs rest arg
      (.invoke sub.sid arg :: fx, ex)
    | some e => ([.invoke sub.sid arg], some e)

/-- Incoming wire datum as seen by `handleNativeMessage`: either
successfully structured data (an already-parsed object, or a string
`JSON.parse` accepted) or a string `JSON.parse` rejected. -/
inductive WireData where
  | parsed (v : JsonValue)
  | malformed

/-- Result of an ingest or timer step: new state, effect trace, optional
escaping exception. -/
structure StepResult where
  state : BridgeState
  effects : List Effect
  exn : Option String

/-- `handleNativeMessage` from `bridge.ts`: parse failures are logged and
dropped; a value passing `isBridgeResponse` whose id has a pending entry
runs that entry's callback (cancel timer, delete entry, settle the
promise); otherwise a value passing `isBridgeEvent` is fanned out to the
channel's subscribers; anything else is logged and dropped. -/
def handleNativeMessage (s : BridgeState) (w : WireData) : StepResult :=
  match w with
  | .malformed =>
    let (fx, ex) := logCall s .warn "Failed to parse message" none
    ⟨s, fx, ex⟩
  | .parsed data =>
    if isBridgeResponse data && (lookupKey s.pendingRequests (responseId data)).isSome then
      let id := responseId data
      let (fx1, ex1) := logCall s .debug "Received response" (some (.obj [("id", .str id)]))
      match ex1 with
      | some e => ⟨s, fx1, some e⟩
      | none =>
        match lookupKey s.pendingRequests id with
        | none => ⟨s, fx1, none⟩
        | some entry =>
          let s1 := { s with
            timers := s.timers.filter (fun u => !(u.tid == entry.timerId)),
            pendingRequests := delKey s.pendingRequests id }
          let settleFx :=
            if responseSuccess data then
              [Effect.resolveP id (data.getField "data")]
            else
              [Effect.rejectP id ⟨.NATIVE_ERROR, responseError data, some entry.reqType⟩]
          ⟨s1, fx1 ++ settleFx, none⟩
    else if isBridgeEvent data then
      let ch := eventName data
      let (fx1, ex1) := logCall s .debug "Received event" (some (.obj [("event", .str ch)]))
      match ex1 with
      | some e => ⟨s, fx1, some e⟩
      | none =>
        match lookupKey s.eventListeners ch with
        | none => ⟨s, fx1, none⟩
        | some listeners =>
          let (fx2, ex2) := runSubs listeners (data.getField "data")
          ⟨s, fx1 ++ fx2, ex2⟩
    else
      let (fx, ex) := logCall s .warn "Invalid message structure" none
      ⟨s, fx, ex⟩

/-- The timeout closure armed by `sendMessage`, as run by the timer
runtime: it can only pop while its timer is armed and its delay has
elapsed (`clearTimeout` disarms it); popping removes the timer, then the
closure deletes the pending entry, logs a warn entry, and rejects the
promise with a `TIMEOUT` error carrying the channel type as detail. -/
def fireTimeout (s : BridgeState) (tid : Nat) : Option StepResult :=
  match s.timers.find? (fun t => t.tid == tid) with
  | none => none
  | some t =>
    if t.expiry ≤ s.now then
      let s1 := { s with timers := s.timers.filter (fun u => !(u.tid == tid)) }
      let s2 := { s1 with pendingRequests := delKey s1.pendingRequests t.reqId }
      let (fx, ex) :=
        logCall s2 .warn "Request timed out"
          (some (.obj [("type", .str t.reqType), ("id", .str t.reqId)]))
      match ex with
      | some e => some ⟨s2, fx, some e⟩
      | none =>
        some ⟨s2, fx ++ [.rejectP t.reqId ⟨.TIMEOUT, "Request timed out", some t.reqType⟩], none⟩
    else none

/-- A process step: any caller-visible bridge operation, a wire arrival, a
timer pop, or the clock advancing. -/
inductive Action where
  | send (type : String) (payload : Option JsonValue) (timeout : Nat)
  | post (type : String) (payload : Option JsonValue)
  | recv (w : WireData)
  | fire (tid : Nat)
  | advance (d : Nat)
  | setLog (fn : Option LoggerFn)
  | listen (event : String) (sub : Subscriber)
  | unlisten (event : String) (sid : Nat)

/-- One step of the process-lifetime transition system. -/
def step (s : BridgeState) (a : Action) : BridgeState × List Effect :=
  match a with
  | .send ty p tmo =>
    let r := sendMessage s ty p tmo
    (r.state, r.effects)
  | .post ty p => postMessage s ty p
  | .recv w =>
    let r := handleNativeMessage s w
    (r.state, r.effects)
  | .fire tid =>
    match fireTimeout s tid with
    | none => (s, [])
    | some r => (r.state, r.effects)
  | .advance d => ({ s with now := s.now + d }, [])
  | .setLog fn => (setLogger s fn, [])
  | .listen ev sub => (addEventListener s ev sub, [])
  | .unlisten ev sid => (unsubscribeRun ev sid s, [])

/-- Run a sequence of steps, accumulating the effect trace. -/
def runActions (s : BridgeState) : List Action → BridgeState × List Effect
  | [] => (s, [])
  | a :: rest =>
    let (s1, fx1) := step s a
    let (s2, fx2) := runActions s1 rest
    (s2, fx1 ++ fx2)

/-- The ids of all envelopes transmitted in an effect trace. -/
def transmittedIds (fx : List Effect) : List String :=
  fx.filterMap (fun e =>
    match e with
    | .transmit m => some m.id
    | _ => none)

/-- An installed observer that never throws (or no observer at all). -/
def LoggerOk (s : BridgeState) : Prop :=
  ∀ f, s.logger = some f → ∀ level message data, f level message data = none

/-- Effects visible to the installed observer. -/
def Effect.isObserve : Effect → Bool
  | .observe _ _ _ => true
  | _ => false

/-! ### Association-list (JS `Map`) lemmas -/

theorem lookupKey_setKey_self {α : Type} (m : List (String × α)) (k : String) (v : α) :
    lookupKey (setKey m k v) k = some v := by
  induction m with
  | nil => simp [setKey, lookupKey]
  | cons e rest ih =>
    by_cases h : e.1 = k
    · simp [setKey, lookupKey, h]
    · simp [setKey, lookupKey, h, ih]

theorem lookupKey_setKey_ne {α : Type} (m : List (String × α)) (k k2 : String) (v : α)
    (h : k2 ≠ k) : lookupKey (setKey m k v) k2 = lookupKey m k2 := by
  have h' : ¬(k = k2) := fun hk => h hk.symm
  induction m with
  | nil => simp [setKey, lookupKey, h']
  | cons e rest ih =>
    by_cases he : e.1 = k
    · subst he
      simp [setKey, lookupKey, h']
    · by_cases he2 : e.1 = k2
      · simp [setKey, lookupKey, he, he2, h]
      · simp [setKey, lookupKey, he, he2, ih]

theorem lookupKey_delKey_self {α : Type} (m : List (String × α)) (k : String) :
    lookupKey (delKey m k) k = none := by
  induction m with
  | nil => simp [delKey, lookupKey]
  | cons e rest ih =>
    by_cases h : e.1 = k
    · simp [delKey, h, ih]
    · simp [delKey, h, lookupKey, ih]

theorem lookupKey_delKey_ne {α : Type} (m : List (String × α)) (k k2 : String)
    (h : k2 ≠ k) : lookupKey (delKey m k) k2 = lookupKey m k2 := by
  induction m with
  | nil => simp [delKey, lookupKey]
  | cons e rest ih =>
    by_cases he : e.1 = k
    · subst he
      have h' : ¬(e.1 = k2) := fun hk => h hk.symm
      simp [delKey, lookupKey, h', ih]
    · by_cases he2 : e.1 = k2
      · simp [delKey, he, lookupKey, he2, h]
      · simp [delKey, he, lookupKey, he2, ih]

theorem setKey_setKey {α : Type} (m : List (String × α)) (k : String) (v1 v2 : α) :
    setKey (setKey m k v1) k v2 = setKey m k v2 := by
  induction m with
  | nil => simp [setKey]
  | cons e rest ih =>
    by_cases h : e.1 = k
    · simp [setKey, h]
    · simp [setKey, h, ih]

/-! ### Subscriber fan-out lemmas -/

theorem runSubs_all_ok (subs : List Subscriber) (arg : Option JsonValue)
    (h : ∀ sub ∈ subs, sub.run arg = none) :
    runSubs subs arg = (subs.map fun sub => .invoke sub.sid arg, none) := by
  induction subs with
  | nil => rfl
  | cons sub rest ih =>
    have hs := h sub (by simp)
    have hr := ih fun x hx => h x (by simp [hx])
    simp [runSubs, hs, hr]

theorem runSubs_throw (pre post : List Subscriber) (t : Subscriber)
    (arg : Option JsonValue) (e : String)
    (hpre : ∀ sub ∈ pre, sub.run arg = none) (ht : t.run arg = some e) :
    runSubs (pre ++ t :: post) arg =
      ((pre.map fun sub => .invoke sub.sid arg) ++ [.invoke t.sid arg], some e) := by
  induction pre with
  | nil => simp [runSubs, ht]
  | cons sub rest ih =>
    have hs := hpre sub (by simp)
    have hr := ih fun x hx => hpre x (by simp [hx])
    simp [runSubs, hs, hr]

/-! ### Claim theorems -/

/-- Claim C7: when the transport detector reports no host, `sendMessage`
rejects immediately with a `NOT_NATIVE` (`NotReachable`-kind) failure,
transmits nothing, registers no pending entry, and arms no timer: the
state is untouched and the effect trace is empty. -/
theorem sendMessage_unreachable_rejects (s : BridgeState) (ty : String)
    (p : Option JsonValue) (tmo : Nat) (h : s.nativeEnv = false) :
    sendMessage s ty p tmo =
      ⟨s, [], .rejected ⟨.NOT_NATIVE, "Not running in native environment", none⟩⟩ := by
  simp [sendMessage, isNativeEnvironment, h]

/-- Witness for C7 at a concrete unreachable state. -/
theorem sendMessage_unreachable_rejects_witness :
    sendMessage ⟨[], [], 0, none, [], 0, 5, false⟩ "push.requestPermission" none 30000 =
      ⟨⟨[], [], 0, none, [], 0, 5, false⟩, [],
       .rejected ⟨.NOT_NATIVE, "Not running in native environment", none⟩⟩ :=
  sendMessage_unreachable_rejects ⟨[], [], 0, none, [], 0, 5, false⟩
    "push.requestPermission" none 30000 rfl

/-- Claim C3 (counterexample): with an installed observer that throws, the
internal log helper throws — the observer's exception comes out of the
logging call, and it escapes `handleNativeMessage` into bridge logic. -/
theorem log_throws_counterexample :
    (logCall ⟨[], [], 0, some (fun _ _ _ => some "boom"), [], 0, 0, true⟩
        .warn "Failed to parse message" none).2 = some "boom" ∧
    (handleNativeMessage ⟨[], [], 0, some (fun _ _ _ => some "boom"), [], 0, 0, true⟩
        .malformed).exn = some "boom" :=
  ⟨rfl, rfl⟩

/-- Claim C3 (amended): the log helper is a no-op when no observer is
installed, and otherwise invokes the observer unguarded: the logging call
returns without throwing exactly when every installed observer returns
normally on those arguments. -/
theorem log_throws_iff_observer_throws (s : BridgeState) (level : AppoLogLevel)
    (message : String) (data : Option JsonValue) :
    (logCall s level message data).2 = none ↔
      ∀ f, s.logger = some f → f level message data = none := by
  cases h : s.logger <;> simp [logCall, h]

/-- Claim C2 (counterexample): with two subscribers on a channel where the
first throws, delivering an event invokes only the first subscriber — the
second is never called and the exception escapes the ingest call. -/
theorem subscriber_throw_counterexample :
    (handleNativeMessage
        ⟨[], [("ch", [⟨0, fun _ => some "boom"⟩, ⟨1, fun _ => none⟩])],
         0, none, [], 0, 0, true⟩
        (.parsed (.obj [("event", .str "ch"), ("data", .null)]))).effects
      = [.invoke 0 (some .null)] ∧
    (handleNativeMessage
        ⟨[], [("ch", [⟨0, fun _ => some "boom"⟩, ⟨1, fun _ => none⟩])],
         0, none, [], 0, 0, true⟩
        (.parsed (.obj [("event", .str "ch"), ("data", .null)]))).exn = some "boom" ∧
    Effect.invoke 1 (some .null) ∉
      (handleNativeMessage
        ⟨[], [("ch", [⟨0, fun _ => some "boom"⟩, ⟨1, fun _ => none⟩])],
         0, none, [], 0, 0, true⟩
        (.parsed (.obj [("event", .str "ch"), ("data", .null)]))).effects := by
  refine ⟨rfl, rfl, ?_⟩
  intro hmem
  rw [show (handleNativeMessage
        ⟨[], [("ch", [⟨0, fun _ => some "boom"⟩, ⟨1, fun _ => none⟩])],
         0, none, [], 0, 0, true⟩
        (.parsed (.obj [("event", .str "ch"), ("data", .null)]))).effects
      = [.invoke 0 (some .null)] from rfl] at hmem
  simp at hmem

/-- Claim C2 (amended): an exception thrown by a subscriber stops event
delivery on that channel: the subscribers registered before it receive
the event data, the throwing subscriber is invoked, the subscribers
registered after it are not invoked, and the exception escapes the
ingest call. -/
theorem subscriber_throw_stops_delivery (s : BridgeState) (v : JsonValue)
    (pre post : List Subscriber) (t : Subscriber) (e : String)
    (hlog : s.logger = none)
    (hresp : isBridgeResponse v = false)
    (hev : isBridgeEvent v = true)
    (hsubs : lookupKey s.eventListeners (eventName v) = some (pre ++ t :: post))
    (hpre : ∀ sub ∈ pre, sub.run (v.getField "data") = none)
    (ht : t.run (v.getField "data") = some e) :
    handleNativeMessage s (.parsed v) =
      ⟨s, (pre.map fun sub => .invoke sub.sid (v.getField "data"))
            ++ [.invoke t.sid (v.getField "data")], some e⟩ := by
  simp [handleNativeMessage, hresp, hev, hsubs, logCall, hlog,
    runSubs_throw pre post t (v.getField "data") e hpre ht]

/-- Witness for the amended C2 at a concrete state and event. -/
theorem subscriber_throw_stops_delivery_witness :
    handleNativeMessage
        ⟨[], [("ch", [⟨0, fun _ => some "boom"⟩, ⟨1, fun _ => none⟩])],
         0, none, [], 0, 0, true⟩
        (.parsed (.obj [("event", .str "ch"), ("data", .null)])) =
      ⟨⟨[], [("ch", [⟨0, fun _ => some "boom"⟩, ⟨1, fun _ => none⟩])],
         0, none, [], 0, 0, true⟩,
       [.invoke 0 (some .null)], some "boom"⟩ :=
  subscriber_throw_stops_delivery
    ⟨[], [("ch", [⟨0, fun _ => some "boom"⟩, ⟨1, fun _ => none⟩])],
     0, none, [], 0, 0, true⟩
    (.obj [("event", .str "ch"), ("data", .null)])
    [] [⟨1, fun _ => none⟩] ⟨0, fun _ => some "boom"⟩ "boom"
    rfl rfl rfl rfl (by intro sub h; cases h) rfl

/-- Claim C1: a Response envelope whose id has no pending entry (late or
duplicate, i.e. the request was already resolved, rejected, or timed
out) is a no-op: the state is unchanged, no exception escapes (assuming
the installed observer itself does not throw), and the effect trace holds
only observer calls — no resolution, no rejection, no transmission, no
subscriber invocation. -/
theorem late_response_is_noop (s : BridgeState) (v : JsonValue)
    (hlog : LoggerOk s)
    (hresp : isBridgeResponse v = true)
    (hev : isBridgeEvent v = false)
    (hpend : lookupKey s.pendingRequests (responseId v) = none) :
    (handleNativeMessage s (.parsed v)).state = s ∧
    (handleNativeMessage s (.parsed v)).exn = none ∧
    (handleNativeMessage s (.parsed v)).effects.all Effect.isObserve = true := by
  cases h : s.logger with
  | none => simp [handleNativeMessage, hresp, hev, hpend, logCall, h]
  | some f =>
    simp [handleNativeMessage, hresp, hev, hpend, logCall, h, hlog f h,
      Effect.isObserve]

/-- Witness for C1: a response for an unknown id at a concrete state with
an installed (well-behaved) observer. -/
theorem late_response_is_noop_witness :
    (handleNativeMessage ⟨[], [], 0, some (fun _ _ _ => none), [], 0, 0, true⟩
        (.parsed (.obj [("id", .str "a"), ("success", .bool true)]))).state
      = ⟨[], [], 0, some (fun _ _ _ => none), [], 0, 0, true⟩ ∧
    (handleNativeMessage ⟨[], [], 0, some (fun _ _ _ => none), [], 0, 0, true⟩
        (.parsed (.obj [("id", .str "a"), ("success", .bool true)]))).exn = none ∧
    (handleNativeMessage ⟨[], [], 0, some (fun _ _ _ => none), [], 0, 0, true⟩
        (.parsed (.obj [("id", .str "a"), ("success", .bool true)]))).effects.all
      Effect.isObserve = true :=
  late_response_is_noop ⟨[], [], 0, some (fun _ _ _ => none), [], 0, 0, true⟩
    (.obj [("id", .str "a"), ("success", .bool true)])
    (by intro f hf; cases hf; intro level message data; rfl) rfl rfl rfl

/-- Claim C6: an incoming wire datum that fails to parse, or parses to a
value matching neither the Response shape nor the Event shape, is dropped:
no exception escapes (assuming the installed observer itself does not
throw), the state — in particular every pending request and every
subscription — is unchanged, and the effect trace holds only observer
calls. -/
theorem malformed_ingest_is_noop (s : BridgeState) (w : WireData)
    (hlog : LoggerOk s)
    (hw : w = .malformed ∨
      ∃ v, w = .parsed v ∧ isBridgeResponse v = false ∧ isBridgeEvent v = false) :
    (handleNativeMessage s w).state = s ∧
    (handleNativeMessage s w).exn = none ∧
    (handleNativeMessage s w).effects.all Effect.isObserve = true := by
  rcases hw with hw | ⟨v, hw, hresp, hev⟩
  · subst hw
    cases h : s.logger with
    | none => simp [handleNativeMessage, logCall, h]
    | some f => simp [handleNativeMessage, logCall, h, hlog f h, Effect.isObserve]
  · subst hw
    cases h : s.logger with
    | none => simp [handleNativeMessage, hresp, hev, logCall, h]
    | some f =>
      simp [handleNativeMessage, hresp, hev, logCall, h, hlog f h, Effect.isObserve]

/-- Witness for C6 at a concrete malformed datum with an installed
(well-behaved) observer. -/
theorem malformed_ingest_is_noop_witness :
    (handleNativeMessage ⟨[], [], 0, some (fun _ _ _ => none), [], 0, 0, true⟩
        .malformed).state = ⟨[], [], 0, some (fun _ _ _ => none), [], 0, 0, true⟩ ∧
    (handleNativeMessage ⟨[], [], 0, some (fun _ _ _ => none), [], 0, 0, true⟩
        .malformed).exn = none ∧
    (handleNativeMessage ⟨[], [], 0, some (fun _ _ _ => none), [], 0, 0, true⟩
        .malformed).effects.all Effect.isObserve = true :=
  malformed_ingest_is_noop ⟨[], [], 0, some (fun _ _ _ => none), [], 0, 0, true⟩
    .malformed (by intro f hf; cases hf; intro level message data; rfl)
    (Or.inl rfl)

/-- Claim C9: the debug entry logged at send time carries only the channel
type and the generated id, never the payload: two host-reachable sends
from the same state with the same type and different payloads present the
observer identical call sequences, and every observer call made by the
send is the debug entry holding exactly the type and the id. -/
theorem send_log_payload_independent (s : BridgeState) (ty : String)
    (p1 p2 : Option JsonValue) (tmo : Nat) (h : s.nativeEnv = true) :
    (sendMessage s ty p1 tmo).effects.filter Effect.isObserve
      = (sendMessage s ty p2 tmo).effects.filter Effect.isObserve ∧
    ∀ e ∈ (sendMessage s ty p1 tmo).effects, e.isObserve = true →
      e = .observe .debug "Sending message"
            (some (.obj [("type", .str ty),
                         ("id", .str (mkMessageId s.now (s.messageIdCounter + 1)))])) := by
  cases hl : s.logger with
  | none =>
    refine ⟨?_, ?_⟩ <;>
      simp [sendMessage, isNativeEnvironment, h, generateMessageId, logCall, hl,
        Effect.isObserve]
  | some f =>
    cases hres : f .debug "Sending message"
        (some (.obj [("type", .str ty),
                     ("id", .str (mkMessageId s.now (s.messageIdCounter + 1)))])) with
    | none =>
      refine ⟨?_, ?_⟩ <;>
        simp [sendMessage, isNativeEnvironment, h, generateMessageId, logCall, hl,
          hres, Effect.isObserve]
    | some e =>
      refine ⟨?_, ?_⟩ <;>
        simp [sendMessage, isNativeEnvironment, h, generateMessageId, logCall, hl,
          hres, Effect.isObserve]

/-- Witness for C9: two sends differing only in payload (one carries a
secret string, the other nothing) from a concrete reachable state. -/
theorem send_log_payload_independent_witness :
    (sendMessage ⟨[], [], 0, some (fun _ _ _ => none), [], 0, 5, true⟩
        "t" (some (.str "secret")) 100).effects.filter Effect.isObserve
      = (sendMessage ⟨[], [], 0, some (fun _ _ _ => none), [], 0, 5, true⟩
          "t" none 100).effects.filter Effect.isObserve ∧
    ∀ e ∈ (sendMessage ⟨[], [], 0, some (fun _ _ _ => none), [], 0, 5, true⟩
        "t" (some (.str "secret")) 100).effects, e.isObserve = true →
      e = .observe .debug "Sending message"
            (some (.obj [("type", .str "t"), ("id", .str (mkMessageId 5 1))])) :=
  send_log_payload_independent ⟨[], [], 0, some (fun _ _ _ => none), [], 0, 5, true⟩
    "t" (some (.str "secret")) none 100 rfl

/-- Claim C8: the unsubscribe closure removes exactly the subscribed
callback from exactly its channel: afterwards the channel holds exactly
the remaining subscribers — the channel entry being removed entirely when
none remain — every other channel is untouched, the remaining subscribers
are still invoked on published events, and invoking the closure a second
or later time is a no-op. -/
theorem unsubscribe_removes_exactly (s : BridgeState) (ch : String) (sid : Nat)
    (listeners : List Subscriber)
    (hch : lookupKey s.eventListeners ch = some listeners) :
    (lookupKey (unsubscribeRun ch sid s).eventListeners ch
        = if (listeners.filter fun x => !(x.sid == sid)).isEmpty then none
          else some (listeners.filter fun x => !(x.sid == sid))) ∧
    (∀ ch2, ch2 ≠ ch →
        lookupKey (unsubscribeRun ch sid s).eventListeners ch2
          = lookupKey s.eventListeners ch2) ∧
    unsubscribeRun ch sid (unsubscribeRun ch sid s) = unsubscribeRun ch sid s ∧
    (∀ arg, (∀ sub ∈ listeners, sub.run arg = none) →
        runSubs (listeners.filter fun x => !(x.sid == sid)) arg
          = ((listeners.filter fun x => !(x.sid == sid)).map
              fun sub => .invoke sub.sid arg, none)) := by
  by_cases hrem : (listeners.filter fun x => !(x.sid == sid)) = []
  · have heq : unsubscribeRun ch sid s
        = { s with eventListeners := delKey s.eventListeners ch } := by
      simp [unsubscribeRun, hch, hrem]
    refine ⟨?_, ?_, ?_, ?_⟩
    · rw [heq]
      simp [hrem, lookupKey_delKey_self]
    · intro ch2 hne
      rw [heq]
      exact lookupKey_delKey_ne s.eventListeners ch ch2 hne
    · rw [heq]
      simp [unsubscribeRun, lookupKey_delKey_self]
    · intro arg hok
      rw [hrem]
      rfl
  · have hlen : ¬((listeners.filter fun x => !(x.sid == sid)).length = 0) := by
      simpa [List.length_eq_zero] using hrem
    have heq : unsubscribeRun ch sid s
        = { s with eventListeners :=
              setKey s.eventListeners ch (listeners.filter fun x => !(x.sid == sid)) } := by
      simp [unsubscribeRun, hch, hlen]
    refine ⟨?_, ?_, ?_, ?_⟩
    · rw [heq]
      simp [lookupKey_setKey_self, List.isEmpty_iff, hrem]
    · intro ch2 hne
      rw [heq]
      exact lookupKey_setKey_ne s.eventListeners ch ch2 _ hne
    · rw [heq]
      have hall : ((listeners.filter fun x => !(x.sid == sid)).filter
          fun x => !(x.sid == sid)) = listeners.filter fun x => !(x.sid == sid) :=
        List.filter_eq_self.mpr fun x hx => (List.mem_filter.mp hx).2
      simp only [unsubscribeRun, lookupKey_setKey_self, hall]
      rw [if_neg hlen, setKey_setKey]
    · intro arg hok
      exact runSubs_all_ok _ arg fun sub hsub =>
        hok sub (List.mem_filter.mp hsub).1

/-- Witness for C8: unsubscribing the first of two subscribers of a
channel in a concrete state that also carries a second channel. -/
theorem unsubscribe_removes_exactly_witness :
    (lookupKey (unsubscribeRun "ch" 0
        ⟨[], [("ch", [⟨0, fun _ => none⟩, ⟨1, fun _ => none⟩]),
              ("other", [⟨2, fun _ => none⟩])], 0, none, [], 0, 0, true⟩).eventListeners "ch"
        = if ([(⟨0, fun _ => none⟩ : Subscriber), ⟨1, fun _ => none⟩].filter
              fun x => !(x.sid == 0)).isEmpty then none
          else some ([(⟨0, fun _ => none⟩ : Subscriber), ⟨1, fun _ => none⟩].filter
              fun x => !(x.sid == 0))) ∧
    (∀ ch2, ch2 ≠ "ch" →
        lookupKey (unsubscribeRun "ch" 0
          ⟨[], [("ch", [⟨0, fun _ => none⟩, ⟨1, fun _ => none⟩]),
                ("other", [⟨2, fun _ => none⟩])], 0, none, [], 0, 0, true⟩).eventListeners ch2
          = lookupKey [("ch", [(⟨0, fun _ => none⟩ : Subscriber), ⟨1, fun _ => none⟩]),
                       ("other", [⟨2, fun _ => none⟩])] ch2) ∧
    unsubscribeRun "ch" 0 (unsubscribeRun "ch" 0
        ⟨[], [("ch", [⟨0, fun _ => none⟩, ⟨1, fun _ => none⟩]),
              ("other", [⟨2, fun _ => none⟩])], 0, none, [], 0, 0, true⟩)
      = unsubscribeRun "ch" 0
        ⟨[], [("ch", [⟨0, fun _ => none⟩, ⟨1, fun _ => none⟩]),
              ("other", [⟨2, fun _ => none⟩])], 0, none, [], 0, 0, true⟩ ∧
    (∀ arg, (∀ sub ∈ [(⟨0, fun _ => none⟩ : Subscriber), ⟨1, fun _ => none⟩],
        sub.run arg = none) →
        runSubs ([(⟨0, fun _ => none⟩ : Subscriber), ⟨1, fun _ => none⟩].filter
            fun x => !(x.sid == 0)) arg
          = (([(⟨0, fun _ => none⟩ : Subscriber), ⟨1, fun _ => none⟩].filter
              fun x => !(x.sid == 0)).map fun sub => .invoke sub.sid arg, none)) :=
  unsubscribe_removes_exactly
    ⟨[], [("ch", [⟨0, fun _ => none⟩, ⟨1, fun _ => none⟩]),
          ("other", [⟨2, fun _ => none⟩])], 0, none, [], 0, 0, true⟩
    "ch" 0 [⟨0, fun _ => none⟩, ⟨1, fun _ => none⟩] rfl

theorem filter_nonObserve_map_invoke (l : List Subscriber) (arg : Option JsonValue) :
    (l.map fun sub => Effect.invoke sub.sid arg).filter (fun e => !e.isObserve)
      = l.map fun sub => Effect.invoke sub.sid arg := by
  induction l with
  | nil => rfl
  | cons sub rest ih => simp [Effect.isObserve, ih]

/-- Claim C10: an incoming object matching both the Response shape and the
Event shape is settled as a Response exactly when its id has a pending
entry — the pending entry is removed and the promise settled, with no
subscriber invoked — and with no matching pending entry the same object
is instead published to the subscribers of the channel named by its
`event` field rather than dropped. -/
theorem both_shapes_routing (s : BridgeState) (v : JsonValue)
    (listeners : List Subscriber)
    (hlog : LoggerOk s)
    (hresp : isBridgeResponse v = true)
    (hev : isBridgeEvent v = true)
    (hsubs : lookupKey s.eventListeners (eventName v) = some listeners)
    (hok : ∀ sub ∈ listeners, sub.run (v.getField "data") = none) :
    (∀ entry, lookupKey s.pendingRequests (responseId v) = some entry →
        (handleNativeMessage s (.parsed v)).state.pendingRequests
            = delKey s.pendingRequests (responseId v) ∧
        (handleNativeMessage s (.parsed v)).effects.filter (fun e => !e.isObserve)
            = (if responseSuccess v then
                 [Effect.resolveP (responseId v) (v.getField "data")]
               else
                 [Effect.rejectP (responseId v)
                    ⟨.NATIVE_ERROR, responseError v, some entry.reqType⟩]) ∧
        (∀ sid arg, Effect.invoke sid arg ∉ (handleNativeMessage s (.parsed v)).effects)) ∧
    (lookupKey s.pendingRequests (responseId v) = none →
        (handleNativeMessage s (.parsed v)).state = s ∧
        (handleNativeMessage s (.parsed v)).effects.filter (fun e => !e.isObserve)
            = listeners.map (fun sub => .invoke sub.sid (v.getField "data")) ∧
        (handleNativeMessage s (.parsed v)).exn = none) := by
  constructor
  · intro entry hpend
    cases hl : s.logger with
    | none =>
      refine ⟨?_, ?_, ?_⟩ <;>
        simp [handleNativeMessage, hresp, hpend, logCall, hl, Effect.isObserve] <;>
        split <;> simp
    | some f =>
      refine ⟨?_, ?_, ?_⟩ <;>
        simp [handleNativeMessage, hresp, hpend, logCall, hl, hlog f hl,
          Effect.isObserve] <;>
        split <;> simp
  · intro hpend
    have hrun := runSubs_all_ok listeners (v.getField "data") hok
    cases hl : s.logger with
    | none =>
      refine ⟨?_, ?_, ?_⟩ <;>
        simp [handleNativeMessage, hresp, hev, hpend, hsubs, logCall, hl, hrun,
          Effect.isObserve, filter_nonObserve_map_invoke]
    | some f =>
      refine ⟨?_, ?_, ?_⟩ <;>
        simp [handleNativeMessage, hresp, hev, hpend, hsubs, logCall, hl,
          hlog f hl, hrun, Effect.isObserve, filter_nonObserve_map_invoke]

/-- Witness for C10: a concrete object carrying `id`, `success`, and
`event` fields at once, in a state with no pending entry for that id and
one subscriber on the named channel. -/
theorem both_shapes_routing_witness :
    (∀ entry, lookupKey ([] : List (String × PendingEntry)) "zz" = some entry →
        (handleNativeMessage
            ⟨[], [("ch", [⟨0, fun _ => none⟩])], 0, none, [], 0, 0, true⟩
            (.parsed (.obj [("id", .str "zz"), ("success", .bool true),
                            ("event", .str "ch")]))).state.pendingRequests
            = delKey [] "zz" ∧
        (handleNativeMessage
            ⟨[], [("ch", [⟨0, fun _ => none⟩])], 0, none, [], 0, 0, true⟩
            (.parsed (.obj [("id", .str "zz"), ("success", .bool true),
                            ("event", .str "ch")]))).effects.filter (fun e => !e.isObserve)
            = (if responseSuccess (.obj [("id", .str "zz"), ("success", .bool true),
                                         ("event", .str "ch")]) then
                 [Effect.resolveP "zz" ((JsonValue.obj [("id", .str "zz"),
                    ("success", .bool true), ("event", .str "ch")]).getField "data")]
               else
                 [Effect.rejectP "zz"
                    ⟨.NATIVE_ERROR, responseError (.obj [("id", .str "zz"),
                       ("success", .bool true), ("event", .str "ch")]),
                     some entry.reqType⟩]) ∧
        (∀ sid arg, Effect.invoke sid arg ∉
            (handleNativeMessage
              ⟨[], [("ch", [⟨0, fun _ => none⟩])], 0, none, [], 0, 0, true⟩
              (.parsed (.obj [("id", .str "zz"), ("success", .bool true),
                              ("event", .str "ch")]))).effects)) ∧
    (lookupKey ([] : List (String × PendingEntry)) "zz" = none →
        (handleNativeMessage
            ⟨[], [("ch", [⟨0, fun _ => none⟩])], 0, none, [], 0, 0, true⟩
            (.parsed (.obj [("id", .str "zz"), ("success", .bool true),
                            ("event", .str "ch")]))).state
          = ⟨[], [("ch", [⟨0, fun _ => none⟩])], 0, none, [], 0, 0, true⟩ ∧
        (handleNativeMessage
            ⟨[], [("ch", [⟨0, fun _ => none⟩])], 0, none, [], 0, 0, true⟩
            (.parsed (.obj [("id", .str "zz"), ("success", .bool true),
                            ("event", .str "ch")]))).effects.filter (fun e => !e.isObserve)
          = ([⟨0, fun _ => none⟩] : List Subscriber).map (fun sub =>
              .invoke sub.sid ((JsonValue.obj [("id", .str "zz"),
                ("success", .bool true), ("event", .str "ch")]).getField "data")) ∧
        (handleNativeMessage
            ⟨[], [("ch", [⟨0, fun _ => none⟩])], 0, none, [], 0, 0, true⟩
            (.parsed (.obj [("id", .str "zz"), ("success", .bool true),
                            ("event", .str "ch")]))).exn = none) :=
  both_shapes_routing
    ⟨[], [("ch", [⟨0, fun _ => none⟩])], 0, none, [], 0, 0, true⟩
    (.obj [("id", .str "zz"), ("success", .bool true), ("event", .str "ch")])
    [⟨0, fun _ => none⟩]
    (by intro f hf; cases hf) rfl rfl rfl
    (by intro sub hsub; simp at hsub; subst hsub; rfl)

/-- Claim C4: for a pending request with an armed timeout timer, a
`TIMEOUT` rejection carrying the channel type as detail happens exactly
when the timer pops with no response having arrived: the timer can only
pop once its window has elapsed and then rejects with `TIMEOUT` and
removes the pending entry, while a matching response settles the request
first, cancels the timer, produces no `TIMEOUT` rejection, and makes any
later pop of that timer impossible. -/
theorem timeout_iff_no_response (s : BridgeState) (id ty : String)
    (tid expiry : Nat) (v : JsonValue)
    (hlog : LoggerOk s)
    (hpend : lookupKey s.pendingRequests id = some ⟨ty, tid⟩)
    (htimer : s.timers.find? (fun t => t.tid == tid) = some ⟨tid, expiry, id, ty⟩)
    (hresp : isBridgeResponse v = true)
    (hid : responseId v = id) :
    (expiry ≤ s.now →
      ∃ r, fireTimeout s tid = some r ∧
        Effect.rejectP id ⟨.TIMEOUT, "Request timed out", some ty⟩ ∈ r.effects ∧
        lookupKey r.state.pendingRequests id = none) ∧
    (s.now < expiry → fireTimeout s tid = none) ∧
    ((handleNativeMessage s (.parsed v)).state.timers.find? (fun t => t.tid == tid)
        = none ∧
     lookupKey (handleNativeMessage s (.parsed v)).state.pendingRequests id = none ∧
     (∀ i err, Effect.rejectP i err ∈ (handleNativeMessage s (.parsed v)).effects →
        err.code ≠ .TIMEOUT) ∧
     fireTimeout (handleNativeMessage s (.parsed v)).state tid = none) := by
  have hsettle : (handleNativeMessage s (.parsed v)).state
      = { s with
            timers := s.timers.filter (fun u => !(u.tid == tid)),
            pendingRequests := delKey s.pendingRequests id } ∧
      (handleNativeMessage s (.parsed v)).effects
        = (logCall s .debug "Received response" (some (.obj [("id", .str id)]))).1
            ++ (if responseSuccess v then
                  [Effect.resolveP id (v.getField "data")]
                else
                  [Effect.rejectP id ⟨.NATIVE_ERROR, responseError v, some ty⟩]) := by
    cases hl : s.logger with
    | none =>
      constructor <;> simp [handleNativeMessage, hresp, hid, hpend, logCall, hl]
    | some f =>
      constructor <;>
        simp [handleNativeMessage, hresp, hid, hpend, logCall, hl, hlog f hl]
  have hfind : (s.timers.filter (fun u => !(u.tid == tid))).find?
      (fun t => t.tid == tid) = none := by
    apply List.find?_eq_none.mpr
    intro x hx
    have := (List.mem_filter.mp hx).2
    simpa using this
  refine ⟨?_, ?_, ?_, ?_, ?_, ?_⟩
  · intro hexp
    cases hl : s.logger with
    | none =>
      have hfire : fireTimeout s tid = some
          ⟨{ s with
              timers := s.timers.filter (fun u => !(u.tid == tid)),
              pendingRequests := delKey s.pendingRequests id },
           [.rejectP id ⟨.TIMEOUT, "Request timed out", some ty⟩], none⟩ := by
        simp [fireTimeout, htimer, hexp, logCall, hl]
      exact ⟨_, hfire, by simp, by simp [lookupKey_delKey_self]⟩
    | some f =>
      have hfire : fireTimeout s tid = some
          ⟨{ s with
              timers := s.timers.filter (fun u => !(u.tid == tid)),
              pendingRequests := delKey s.pendingRequests id },
           [.observe .warn "Request timed out"
              (some (.obj [("type", .str ty), ("id", .str id)])),
            .rejectP id ⟨.TIMEOUT, "Request timed out", some ty⟩], none⟩ := by
        simp [fireTimeout, htimer, hexp, logCall, hl, hlog f hl]
      exact ⟨_, hfire, by simp, by simp [lookupKey_delKey_self]⟩
  · intro hexp
    have hne : ¬(expiry ≤ s.now) := by omega
    simp [fireTimeout, htimer, hne]
  · rw [hsettle.1]
    exact hfind
  · rw [hsettle.1]
    exact lookupKey_delKey_self s.pendingRequests id
  · intro i err hmem
    rw [hsettle.2] at hmem
    rcases List.mem_append.mp hmem with hmem | hmem
    · cases hl : s.logger with
      | none => simp [logCall, hl] at hmem
      | some f => simp [logCall, hl] at hmem
    · by_cases hsucc : responseSuccess v = true <;> simp [hsucc] at hmem
      rw [hmem.2]
      simp
  · rw [hsettle.1]
    simp [fireTimeout, hfind]

/-- Witness for C4 at a concrete state holding one pending request whose
timer window has elapsed, and a concrete matching response. -/
theorem timeout_iff_no_response_witness :
    (10 ≤ 10 →
      ∃ r, fireTimeout
          ⟨[("a", ⟨"storage.get", 0⟩)], [], 0, none,
           [⟨0, 10, "a", "storage.get"⟩], 1, 10, true⟩ 0 = some r ∧
        Effect.rejectP "a" ⟨.TIMEOUT, "Request timed out", some "storage.get"⟩
          ∈ r.effects ∧
        lookupKey r.state.pendingRequests "a" = none) ∧
    ((10 : Nat) < 10 → fireTimeout
        ⟨[("a", ⟨"storage.get", 0⟩)], [], 0, none,
         [⟨0, 10, "a", "storage.get"⟩], 1, 10, true⟩ 0 = none) ∧
    ((handleNativeMessage
        ⟨[("a", ⟨"storage.get", 0⟩)], [], 0, none,
         [⟨0, 10, "a", "storage.get"⟩], 1, 10, true⟩
        (.parsed (.obj [("id", .str "a"),
          ("success", .bool true)]))).state.timers.find? (fun t => t.tid == 0)
        = none ∧
     lookupKey (handleNativeMessage
        ⟨[("a", ⟨"storage.get", 0⟩)], [], 0, none,
         [⟨0, 10, "a", "storage.get"⟩], 1, 10, true⟩
        (.parsed (.obj [("id", .str "a"),
          ("success", .bool true)]))).state.pendingRequests "a" = none ∧
     (∀ i err, Effect.rejectP i err ∈ (handleNativeMessage
        ⟨[("a", ⟨"storage.get", 0⟩)], [], 0, none,
         [⟨0, 10, "a", "storage.get"⟩], 1, 10, true⟩
        (.parsed (.obj [("id", .str "a"),
          ("success", .bool true)]))).effects → err.code ≠ .TIMEOUT) ∧
     fireTimeout (handleNativeMessage
        ⟨[("a", ⟨"storage.get", 0⟩)], [], 0, none,
         [⟨0, 10, "a", "storage.get"⟩], 1, 10, true⟩
        (.parsed (.obj [("id", .str "a"), ("success", .bool true)]))).state 0
       = none) :=
  timeout_iff_no_response
    ⟨[("a", ⟨"storage.get", 0⟩)], [], 0, none,
     [⟨0, 10, "a", "storage.get"⟩], 1, 10, true⟩
    "a" "storage.get" 0 10
    (.obj [("id", .str "a"), ("success", .bool true)])
    (by intro f hf; cases hf) rfl rfl rfl rfl

/-! ### Message-id injectivity -/

theorem digitChar_lt_ten_inj :
    ∀ a < 10, ∀ b < 10, Nat.digitChar a = Nat.digitChar b → a = b := by decide

theorem digitChar_ne_underscore : ∀ d < 10, Nat.digitChar d ≠ '_' := by decide

theorem decChars_no_underscore (n : Nat) : '_' ∉ decChars n := by
  unfold decChars
  split
  · simp
  · intro hmem
    rw [List.mem_reverse] at hmem
    obtain ⟨d, hd, hdc⟩ := List.mem_map.mp hmem
    exact digitChar_ne_underscore d (Nat.digits_lt_base (by norm_num) hd) hdc

theorem map_digitChar_inj : ∀ (l1 l2 : List Nat), (∀ d ∈ l1, d < 10) →
    (∀ d ∈ l2, d < 10) → l1.map Nat.digitChar = l2.map Nat.digitChar → l1 = l2
  | [], [], _, _, _ => rfl
  | [], _ :: _, _, _, h => by simp at h
  | _ :: _, [], _, _, h => by simp at h
  | d1 :: r1, d2 :: r2, h1, h2, h => by
    simp only [List.map_cons, List.cons.injEq] at h
    have hd := digitChar_lt_ten_inj d1 (h1 d1 (by simp)) d2 (h2 d2 (by simp)) h.1
    have hr := map_digitChar_inj r1 r2 (fun d hd => h1 d (by simp [hd]))
      (fun d hd => h2 d (by simp [hd])) h.2
    rw [hd, hr]

theorem decChars_eq_zero_chars {n : Nat} (h : decChars n = ['0']) : n = 0 := by
  by_contra hn
  rw [decChars, if_neg hn] at h
  have hmap : (Nat.digits 10 n).map Nat.digitChar = ['0'] := by
    have := congrArg List.reverse h
    simpa using this
  cases hD : Nat.digits 10 n with
  | nil => rw [hD] at hmap; simp at hmap
  | cons d rest =>
    rw [hD] at hmap
    simp only [List.map_cons, List.cons.injEq, List.map_eq_nil_iff] at hmap
    have hd10 : d < 10 :=
      Nat.digits_lt_base (by norm_num) (hD ▸ List.mem_cons_self d rest)
    have hd0 : d = 0 :=
      digitChar_lt_ten_inj d hd10 0 (by norm_num) (by simpa using hmap.1)
    have hofd := Nat.ofDigits_digits 10 n
    rw [hD, hmap.2, hd0] at hofd
    simp [Nat.ofDigits] at hofd
    exact hn hofd.symm

theorem decChars_inj {m n : Nat} (h : decChars m = decChars n) : m = n := by
  by_cases hm : m = 0
  · by_cases hn : n = 0
    · rw [hm, hn]
    · subst hm
      exact absurd (decChars_eq_zero_chars (h.symm.trans (by rfl))) hn
  by_cases hn : n = 0
  · subst hn
    exact absurd (decChars_eq_zero_chars (h.trans (by rfl))) hm
  · rw [decChars, if_neg hm, decChars, if_neg hn] at h
    have hmap : (Nat.digits 10 m).map Nat.digitChar
        = (Nat.digits 10 n).map Nat.digitChar := by
      have := congrArg List.reverse h
      simpa using this
    have hdig := map_digitChar_inj (Nat.digits 10 m) (Nat.digits 10 n)
      (fun d hd => Nat.digits_lt_base (by norm_num) hd)
      (fun d hd => Nat.digits_lt_base (by norm_num) hd) hmap
    simpa using hdig

theorem sep_split_inj : ∀ (l1 l2 r1 r2 : List Char), '_' ∉ l1 → '_' ∉ l2 →
    l1 ++ '_' :: r1 = l2 ++ '_' :: r2 → l1 = l2 ∧ r1 = r2
  | [], [], r1, r2, _, _, h => by simpa using h
  | [], c :: rest, r1, r2, _, h2, h => by
    simp only [List.nil_append, List.cons_append, List.cons.injEq] at h
    exact absurd (List.mem_cons.mpr (Or.inl h.1)) h2
  | c :: rest, [], r1, r2, h1, _, h => by
    simp only [List.nil_append, List.cons_append, List.cons.injEq] at h
    exact absurd (List.mem_cons.mpr (Or.inl h.1.symm)) h1
  | c1 :: rest1, c2 :: rest2, r1, r2, h1, h2, h => by
    simp only [List.cons_append, List.cons.injEq] at h
    have ih := sep_split_inj rest1 rest2 r1 r2
      (fun hm => h1 (List.mem_cons_of_mem _ hm))
      (fun hm => h2 (List.mem_cons_of_mem _ hm)) h.2
    exact ⟨by rw [h.1, ih.1], ih.2⟩

theorem mkMessageId_data (t c : Nat) :
    (mkMessageId t c).data
      = 'm' :: 's' :: 'g' :: '_' :: (decChars t ++ '_' :: decChars c) := by
  show (("msg_" ++ ⟨decChars t⟩ ++ "_") ++ ⟨decChars c⟩).data = _
  rw [String.data_append, String.data_append, String.data_append]
  rw [show "msg_".data = ['m', 's', 'g', '_'] from rfl,
      show "_".data = ['_'] from rfl]
  simp

theorem mkMessageId_inj {t1 c1 t2 c2 : Nat}
    (h : mkMessageId t1 c1 = mkMessageId t2 c2) : t1 = t2 ∧ c1 = c2 := by
  have hdata := congrArg String.data h
  rw [mkMessageId_data, mkMessageId_data] at hdata
  simp only [List.cons.injEq, true_and] at hdata
  have hsplit := sep_split_inj (decChars t1) (decChars t2) (decChars c1) (decChars c2)
    (decChars_no_underscore t1) (decChars_no_underscore t2) hdata
  exact ⟨decChars_inj hsplit.1, decChars_inj hsplit.2⟩

/-! ### No operation other than a send transmits; sends increment the counter -/

theorem transmittedIds_append (a b : List Effect) :
    transmittedIds (a ++ b) = transmittedIds a ++ transmittedIds b := by
  simp [transmittedIds]

theorem transmittedIds_logCall (s : BridgeState) (level : AppoLogLevel)
    (message : String) (data : Option JsonValue) :
    transmittedIds (logCall s level message data).1 = [] := by
  cases h : s.logger <;> simp [logCall, h, transmittedIds]

theorem transmittedIds_runSubs (l : List Subscriber) (arg : Option JsonValue) :
    transmittedIds (runSubs l arg).1 = [] := by
  induction l with
  | nil => rfl
  | cons sub rest ih =>
    cases hr : sub.run arg with
    | none =>
      simp only [runSubs, hr]
      simpa [transmittedIds] using ih
    | some e => simp [runSubs, hr, transmittedIds]

theorem runSubs_no_transmit (l : List Subscriber) (arg : Option JsonValue) :
    ∀ a ∈ (runSubs l arg).1,
      (match a with
        | Effect.transmit m => some m.id
        | _ => none) = (none : Option String) := by
  have h := transmittedIds_runSubs l arg
  rw [transmittedIds, List.filterMap_eq_nil_iff] at h
  exact h

theorem hnm_spec (s : BridgeState) (w : WireData) :
    (handleNativeMessage s w).state.messageIdCounter = s.messageIdCounter ∧
    transmittedIds (handleNativeMessage s w).effects = [] := by
  cases w with
  | malformed => cases hl : s.logger <;> simp [handleNativeMessage, logCall, hl, transmittedIds]
  | parsed v =>
    by_cases hresp : isBridgeResponse v = true
    · cases hpend : lookupKey s.pendingRequests (responseId v) with
      | some entry =>
        cases hl : s.logger with
        | none =>
          by_cases hsucc : responseSuccess v = true <;>
            simp [handleNativeMessage, hresp, hpend, logCall, hl, hsucc, transmittedIds]
        | some f =>
          cases hres : f .debug "Received response"
              (some (.obj [("id", .str (responseId v))])) with
          | some e => simp [handleNativeMessage, hresp, hpend, logCall, hl, hres, transmittedIds]
          | none =>
            by_cases hsucc : responseSuccess v = true <;>
              simp [handleNativeMessage, hresp, hpend, logCall, hl, hres, hsucc,
                transmittedIds]
      | none =>
        by_cases hev : isBridgeEvent v = true
        · cases hl : s.logger with
          | none =>
            cases hsubs : lookupKey s.eventListeners (eventName v) with
            | none =>
              simp [handleNativeMessage, hresp, hpend, hev, logCall, hl, hsubs, transmittedIds]
            | some listeners =>
              simp [handleNativeMessage, hresp, hpend, hev, logCall, hl, hsubs,
                transmittedIds_append, transmittedIds_runSubs, transmittedIds]
              exact runSubs_no_transmit listeners (v.getField "data")
          | some f =>
            cases hres : f .debug "Received event"
                (some (.obj [("event", .str (eventName v))])) with
            | some e =>
              simp [handleNativeMessage, hresp, hpend, hev, logCall, hl, hres, transmittedIds]
            | none =>
              cases hsubs : lookupKey s.eventListeners (eventName v) with
              | none =>
                simp [handleNativeMessage, hresp, hpend, hev, logCall, hl, hres, hsubs,
                  transmittedIds]
              | some listeners =>
                simp [handleNativeMessage, hresp, hpend, hev, logCall, hl, hres, hsubs,
                  transmittedIds_append, transmittedIds_runSubs, transmittedIds]
                exact runSubs_no_transmit listeners (v.getField "data")
        · cases hl : s.logger <;>
            simp [handleNativeMessage, hresp, hpend, hev, logCall, hl, transmittedIds]
    · by_cases hev : isBridgeEvent v = true
      · cases hl : s.logger with
        | none =>
          cases hsubs : lookupKey s.eventListeners (eventName v) with
          | none => simp [handleNativeMessage, hresp, hev, logCall, hl, hsubs, transmittedIds]
          | some listeners =>
            simp [handleNativeMessage, hresp, hev, logCall, hl, hsubs,
              transmittedIds_append, transmittedIds_runSubs, transmittedIds]
            exact runSubs_no_transmit listeners (v.getField "data")
        | some f =>
          cases hres : f .debug "Received event"
              (some (.obj [("event", .str (eventName v))])) with
          | some e => simp [handleNativeMessage, hresp, hev, logCall, hl, hres, transmittedIds]
          | none =>
            cases hsubs : lookupKey s.eventListeners (eventName v) with
            | none =>
              simp [handleNativeMessage, hresp, hev, logCall, hl, hres, hsubs, transmittedIds]
            | some listeners =>
              simp [handleNativeMessage, hresp, hev, logCall, hl, hres, hsubs,
                transmittedIds_append, transmittedIds_runSubs, transmittedIds]
              exact runSubs_no_transmit listeners (v.getField "data")
      · cases hl : s.logger <;>
          simp [handleNativeMessage, hresp, hev, logCall, hl, transmittedIds]

theorem step_spec (s : BridgeState) (a : Action) :
    s.messageIdCounter ≤ (step s a).1.messageIdCounter ∧
    (transmittedIds (step s a).2 = [] ∨
      (transmittedIds (step s a).2 = [mkMessageId s.now (s.messageIdCounter + 1)] ∧
       (step s a).1.messageIdCounter = s.messageIdCounter + 1)) := by
  cases a with
  | send ty p tmo =>
    by_cases hn : s.nativeEnv = true
    · cases hl : s.logger with
      | none =>
        refine ⟨?_, Or.inr ⟨?_, ?_⟩⟩ <;>
          simp [step, sendMessage, isNativeEnvironment, hn, generateMessageId,
            logCall, hl, transmittedIds]
      | some f =>
        cases hres : f .debug "Sending message"
            (some (.obj [("type", .str ty),
                         ("id", .str (mkMessageId s.now (s.messageIdCounter + 1)))])) with
        | some e =>
          refine ⟨?_, Or.inl ?_⟩ <;>
            simp [step, sendMessage, isNativeEnvironment, hn, generateMessageId,
              logCall, hl, hres, transmittedIds]
        | none =>
          refine ⟨?_, Or.inr ⟨?_, ?_⟩⟩ <;>
            simp [step, sendMessage, isNativeEnvironment, hn, generateMessageId,
              logCall, hl, hres, transmittedIds]
    · refine ⟨?_, Or.inl ?_⟩ <;>
        simp [step, sendMessage, isNativeEnvironment, hn, transmittedIds]
  | post ty p =>
    by_cases hn : s.nativeEnv = true
    · refine ⟨?_, Or.inr ⟨?_, ?_⟩⟩ <;>
        simp [step, postMessage, isNativeEnvironment, hn, generateMessageId,
          transmittedIds]
    · refine ⟨?_, Or.inl ?_⟩ <;>
        simp [step, postMessage, isNativeEnvironment, hn, transmittedIds]
  | recv w =>
    exact ⟨Nat.le_of_eq (hnm_spec s w).1.symm, Or.inl (hnm_spec s w).2⟩
  | fire tid =>
    cases hfind : s.timers.find? (fun t => t.tid == tid) with
    | none =>
      refine ⟨?_, Or.inl ?_⟩ <;> simp [step, fireTimeout, hfind, transmittedIds]
    | some t =>
      by_cases hexp : t.expiry ≤ s.now
      · cases hl : s.logger with
        | none =>
          refine ⟨?_, Or.inl ?_⟩ <;>
            simp [step, fireTimeout, hfind, hexp, logCall, hl, transmittedIds]
        | some f =>
          cases hres : f .warn "Request timed out"
              (some (.obj [("type", .str t.reqType), ("id", .str t.reqId)])) <;>
            refine ⟨?_, Or.inl ?_⟩ <;>
              simp [step, fireTimeout, hfind, hexp, logCall, hl, hres, transmittedIds]
      · refine ⟨?_, Or.inl ?_⟩ <;> simp [step, fireTimeout, hfind, hexp, transmittedIds]
  | advance d => exact ⟨Nat.le_refl _, Or.inl rfl⟩
  | setLog fn => exact ⟨Nat.le_refl _, Or.inl rfl⟩
  | listen ev sub => exact ⟨Nat.le_refl _, Or.inl rfl⟩
  | unlisten ev sid =>
    cases hsub : lookupKey s.eventListeners ev with
    | none =>
      refine ⟨?_, Or.inl ?_⟩ <;> simp [step, unsubscribeRun, hsub, transmittedIds]
    | some listeners =>
      by_cases hlen : (listeners.filter fun x => !(x.sid == sid)).length = 0 <;>
        refine ⟨?_, Or.inl ?_⟩ <;>
          simp [step, unsubscribeRun, hsub, hlen, transmittedIds]

theorem runActions_spec (acts : List Action) (s : BridgeState) :
    s.messageIdCounter ≤ (runActions s acts).1.messageIdCounter ∧
    (∀ i ∈ transmittedIds (runActions s acts).2, ∃ t c, i = mkMessageId t c ∧
        s.messageIdCounter < c ∧ c ≤ (runActions s acts).1.messageIdCounter) ∧
    List.Pairwise (fun a b => a ≠ b) (transmittedIds (runActions s acts).2) := by
  induction acts generalizing s with
  | nil => simp [runActions, transmittedIds]
  | cons a rest ih =>
    obtain ⟨hle1, hdis⟩ := step_spec s a
    obtain ⟨hle2, hmem2, hpw2⟩ := ih (step s a).1
    have hrun : runActions s (a :: rest)
        = ((runActions (step s a).1 rest).1,
           (step s a).2 ++ (runActions (step s a).1 rest).2) := by
      simp [runActions]
    rw [hrun]
    dsimp only
    rw [transmittedIds_append]
    rcases hdis with hnil | ⟨hone, hcnt⟩
    · rw [hnil, List.nil_append]
      refine ⟨le_trans hle1 hle2, ?_, hpw2⟩
      intro i hi
      obtain ⟨t, c, hic, hlt, hle⟩ := hmem2 i hi
      exact ⟨t, c, hic, lt_of_le_of_lt hle1 hlt, hle⟩
    · rw [hone, List.singleton_append]
      refine ⟨le_trans hle1 hle2, ?_, ?_⟩
      · intro i hi
        rcases List.mem_cons.mp hi with hi | hi
        · exact ⟨s.now, s.messageIdCounter + 1, hi, Nat.lt_succ_self _,
            hcnt ▸ hle2⟩
        · obtain ⟨t, c, hic, hlt, hle⟩ := hmem2 i hi
          refine ⟨t, c, hic, ?_, hle⟩
          omega
      · rw [List.pairwise_cons]
        refine ⟨?_, hpw2⟩
        intro i hi heq
        obtain ⟨t, c, hic, hlt, hle⟩ := hmem2 i hi
        rw [hic] at heq
        have hc := (mkMessageId_inj heq).2
        omega

/-- Claim C5: over any process lifetime — any start state and any sequence
of bridge operations, wire arrivals, timer pops, and clock advances,
including several sends within the same timer tick — the transmitted
request envelopes carry pairwise-distinct ids. -/
theorem transmitted_ids_unique (s : BridgeState) (acts : List Action) :
    List.Pairwise (fun a b => a ≠ b) (transmittedIds (runActions s acts).2) :=
  (runActions_spec acts s).2.2

end Appo
